import Mathlib

/-!
Shallow embedding of `ardere/aws.py` (the ECS cluster controller) and proofs
about its capacity model, lifecycle controller, readiness tracker,
provisioner and teardown routine.

Python dictionaries with string keys are modelled as association lists
`List (String × Int)` (Python dicts have no duplicate keys; where a proof
needs this we take a `Nodup` hypothesis on the key list).  Remote AWS calls
are modelled as a trace of issued calls plus oracles describing the remote
side's replies; a Python exception escaping a function is an `Except.error`.
-/

deriving instance DecidableEq for Except

namespace Ardere

/-- `dict.get(key, 0)` on an association list. -/
def dictGet (d : List (String × Int)) (k : String) : Int :=
  match d.find? (fun p => p.1 == k) with
  | some p => p.2
  | none => 0

/-- The `ec2_type_by_vcpu` table from `aws.py`, verbatim. -/
def ec2_type_by_vcpu : List (Nat × List String) :=
  [ (1, ["t2.nano", "t2.micro", "t2.small", "m3.medium"]),
    (2, ["t2.medium", "t2.large", "m3.large", "m4.large", "c3.large",
         "c4.large", "r3.large", "r4.large"]),
    (4, ["t2.xlarge", "m3.xlarge", "m4.xlarge", "c3.xlarge", "c4.xlarge",
         "r3.xlarge", "r4.xlarge"]),
    (8, ["t2.2xlarge", "m3.2xlarge", "m4.2xlarge", "c3.2xlarge", "c4.2xlarge",
         "r3.2xlarge", "r4.2xlarge"]),
    (16, ["m4.4xlarge", "c3.4xlarge", "c4.4xlarge", "r3.4xlarge", "r4.4xlarge"]),
    (32, ["c3.8xlarge", "r3.8xlarge", "r4.8xlarge"]),
    (36, ["c4.8xlarge"]),
    (40, ["m4.10xlarge"]),
    (64, ["m4.16xlarge", "x1.16xlarge", "r4.16xlarge"]),
    (128, ["x1.32xlarge"]) ]

/-- The derived `ec2_vcpu_by_type` mapping, built by the same double loop as
the module-level code in `aws.py`. -/
def ec2_vcpu_by_type : List (String × Nat) :=
  ec2_type_by_vcpu.foldl
    (fun acc p => acc ++ p.2.map (fun t => (t, p.1))) []

/-- Lookup in `ec2_vcpu_by_type`; `none` models a Python `KeyError`. -/
def vcpuLookup (instance_type : String) : Option Nat :=
  (ec2_vcpu_by_type.find? (fun p => p.1 == instance_type)).map Prod.snd

/-- `cpu_units_for_instance_type`: `(ec2_vcpu_by_type[t] * 1024) - 512`,
raising (`Except.error`) when the type is absent from the table. -/
def cpu_units_for_instance_type (instance_type : String) : Except Unit Int :=
  match vcpuLookup instance_type with
  | none => .error ()
  | some v => .ok ((v : Int) * 1024 - 512)

/-- `ECSManager.calculate_missing_instances`: for each desired type whose
current count is below the desired count, record the (positive) deficit. -/
def calculate_missing_instances (desired current : List (String × Int)) :
    List (String × Int) :=
  desired.foldl
    (fun needed p =>
      let cur := dictGet current p.1
      if cur < p.2 then needed ++ [(p.1, p.2 - cur)] else needed) []

/-- The naming-relevant state of an `ECSManager`: the cluster name
(`plan["ecs_name"]`) and the run identifier (`plan["plan_run_uuid"]`). -/
structure ECSManager where
  ecs_name : String
  plan_uuid : String
deriving DecidableEq

/-- `ECSManager.family_name`: `step["name"] + "-" + self._plan_uuid`. -/
def ECSManager.family_name (m : ECSManager) (step_name : String) : String :=
  step_name ++ "-" ++ m.plan_uuid

/-- `ECSManager.metrics_family_name`: `"{}-metrics".format(self._ecs_name)`. -/
def ECSManager.metrics_family_name (m : ECSManager) : String :=
  m.ecs_name ++ "-metrics"

/-- EC2 instance lifecycle states and their numeric state codes, as listed in
the comment in `query_active_instances` ("0 = Pending, 16 = Running, > is all
shutting down, etc."). -/
inductive InstanceState
  | pending | running | shuttingDown | terminated | stopping | stopped
deriving DecidableEq

/-- The numeric code of each EC2 instance state. -/
def InstanceState.code : InstanceState → Nat
  | .pending => 0
  | .running => 16
  | .shuttingDown => 32
  | .terminated => 48
  | .stopping => 64
  | .stopped => 80

/-- One EC2 instance record as inspected by `query_active_instances`. -/
structure EC2Instance where
  state : InstanceState
  instanceType : String

/-- One reservation of a `describe_instances` page. -/
structure Reservation where
  instances : List EC2Instance

/-- One page produced by the `describe_instances` paginator (already filtered
by the `tag:Owner = ardere` and `tag:ECSCluster = cluster` filters the code
sends with the request). -/
structure DescribeInstancesPage where
  reservations : List Reservation

/-- `ECSManager.query_active_instances`: walk every page, reservation and
instance, and count instances with state code ≤ 16 grouped by instance
type (the `defaultdict(int)` is modelled as a total count function). -/
def query_active_instances (pages : List DescribeInstancesPage) :
    String → Nat :=
  pages.foldl
    (fun acc page =>
      page.reservations.foldl
        (fun acc r =>
          r.instances.foldl
            (fun acc inst =>
              if inst.state.code ≤ 16 then
                fun t => if t == inst.instanceType then acc t + 1 else acc t
              else acc)
            acc)
        acc)
    (fun _ => 0)

/-- One deployment record of an ECS service description. -/
structure Deployment where
  desiredCount : Int
  runningCount : Int

/-- One service record of a `describe_services` response. -/
structure ECSService where
  deployments : List Deployment

/-- A `describe_services` response (a missing service yields an empty
`services` list). -/
structure DescribeServicesResponse where
  services : List ECSService

/-- `ECSManager.service_ready`: read `services[0].deployments[0]`, returning
`false` when either index is out of range (the `except (TypeError,
IndexError)` branch), else compare desired and running counts. -/
def service_ready (resp : DescribeServicesResponse) : Bool :=
  match resp.services with
  | [] => false
  | svc :: _ =>
    match svc.deployments with
    | [] => false
    | dep :: _ => dep.desiredCount == dep.runningCount

/-- An ECS remote call issued by the lifecycle controller. -/
inductive EcsCall
  | updateService (service : String) (desiredCount : Int)
  | deleteService (service : String)
  | describeTaskDefinition (family : String)
  | deregisterTaskDefinition (family : String)
deriving DecidableEq

/-- The step fields read and written by `stop_finished_service`.
`service_status` is `none` when the `"service_status"` key was never set on
the step dict (every step before `create_service` ran on it), and Python's
`step.get("run_delay", 0)` is `run_delay.getD 0`. -/
structure Step where
  name : String
  run_delay : Option Int
  run_max_time : Int
  service_status : Option String
deriving DecidableEq

/-- `ECSManager.stop_finished_service`.  Reading a missing
`"service_status"` key raises `KeyError`, modelled as `Except.error ()`.
Otherwise: no-op when already `"STOPPED"`; no-op when
`now < start_time + step.get("run_delay", 0) + run_max_time`; else issue one
scale-to-zero `update_service` call and mark the step `"STOPPED"`. -/
def stop_finished_service (now start_time : Int) (step : Step) :
    Except Unit (Step × List EcsCall) :=
  match step.service_status with
  | none => .error ()
  | some status =>
    if status == "STOPPED" then .ok (step, [])
    else
      let step_duration := step.run_delay.getD 0 + step.run_max_time
      if now < start_time + step_duration then .ok (step, [])
      else
        .ok ({ step with service_status := some "STOPPED" },
             [.updateService step.name 0])

/-- `ECSManager.stop_finished_services`: run `stop_finished_service` on each
step in order; a `KeyError` escaping one call aborts the whole loop. -/
def stop_finished_services (now start_time : Int) (steps : List Step) :
    Except Unit (List Step × List EcsCall) :=
  match steps with
  | [] => .ok ([], [])
  | step :: rest =>
    match stop_finished_service now start_time step with
    | .error e => .error e
    | .ok (step', calls) =>
      match stop_finished_services now start_time rest with
      | .error e => .error e
      | .ok (rest', calls') => .ok (step' :: rest', calls ++ calls')

/-- An EC2 remote call issued by `request_instances`. -/
inductive EC2Call
  | runInstances (instanceType : String) (minCount maxCount : Int)
  | createTags (resources : List String)
deriving DecidableEq

/-- `ECSManager.request_instances`.  `launch t c` is the remote side's reply
to `run_instances(InstanceType=t, MinCount=c, MaxCount=c)`: the instance ids
of the launched instances, or an exception.  The function returns the trace
of issued EC2 calls and the escaping exception, if any: one launch call per
dict entry, then—only if every launch succeeded—one `create_tags` call over
all returned instance ids. -/
def request_instances (launch : String → Int → Except Unit (List String)) :
    List (String × Int) → List String → List EC2Call × Option Unit
  | [], acc => ([.createTags acc], none)
  | (t, c) :: rest, acc =>
    match launch t c with
    | .error e => ([.runInstances t c c], some e)
    | .ok ids =>
      let (calls, err) := request_instances launch rest (acc ++ ids)
      (.runInstances t c c :: calls, err)

/-- The remote side's behaviour for one service during teardown: whether the
scale-to-zero `update_service` call raises `ClientError`, and whether the
`delete_service` call raises `ClientError`. -/
structure SvcBehavior where
  updateFails : Bool
  deleteFails : Bool

/-- The per-service loop of `ECSManager.shutdown_plan`: for each service ARN
try `update_service(desiredCount=0)` — on `ClientError` `continue` to the
next ARN — then try `delete_service`, swallowing any `ClientError`.  Returns
the trace of attempted calls; the loop itself never raises. -/
def shutdown_services_loop (beh : String → SvcBehavior) :
    List String → List EcsCall
  | [] => []
  | arn :: rest =>
    if (beh arn).updateFails then
      .updateService arn 0 :: shutdown_services_loop beh rest
    else
      .updateService arn 0 :: .deleteService arn ::
        shutdown_services_loop beh rest

/-- The remote side's behaviour for one task-definition family during
teardown: whether `describe_task_definition` raises `ClientError`, and
whether `deregister_task_definition` raises `ClientError`. -/
structure FamilyBehavior where
  describeFails : Bool
  deregisterFails : Bool

/-- The task-definition loop of `ECSManager.shutdown_plan`: for each family
name try `describe_task_definition` — on `ClientError` `continue` — then try
`deregister_task_definition`, swallowing any `ClientError`. -/
def shutdown_families_loop (beh : String → FamilyBehavior) :
    List String → List EcsCall
  | [] => []
  | fam :: rest =>
    if (beh fam).describeFails then
      .describeTaskDefinition fam :: shutdown_families_loop beh rest
    else
      .describeTaskDefinition fam :: .deregisterTaskDefinition fam ::
        shutdown_families_loop beh rest

/-- The remaining-services computation at the head of `shutdown_plan`:
concatenate the `list_services` pages, then — when metrics teardown is not
requested and `locate_metrics_service` found a metrics service whose ARN is
among them — remove that ARN. -/
def remaining_service_arns (pages : List (List String)) (tear_down : Bool)
    (metrics_arn : Option String) : List String :=
  let service_arns := pages.foldl (fun acc page => acc ++ page) []
  if !tear_down then
    match metrics_arn with
    | some arn =>
      if arn ∈ service_arns then service_arns.erase arn else service_arns
    | none => service_arns
  else service_arns

/-- The family names `shutdown_plan` deregisters: one per step, plus the
metrics family name when metrics teardown was requested. -/
def plan_family_names (m : ECSManager) (tear_down : Bool)
    (step_names : List String) : List String :=
  let step_family_names := step_names.map m.family_name
  if tear_down then step_family_names ++ [m.metrics_family_name]
  else step_family_names

/-- `ECSManager.shutdown_plan`.  `pages` are the `list_services` pages;
`tear_down` is `plan["influx_options"]["tear_down"]`; `metrics_arn` is the
service ARN found by `locate_metrics_service` (or `none`).  The enumerated
ARNs are concatenated across pages; when metrics teardown is not requested
and the metrics service was found, its ARN is removed from the list; then
the two best-effort loops run.  The whole routine returns a call trace and
never raises. -/
def shutdown_plan (m : ECSManager) (pages : List (List String))
    (tear_down : Bool) (metrics_arn : Option String)
    (svcBeh : String → SvcBehavior) (famBeh : String → FamilyBehavior)
    (step_names : List String) : List EcsCall :=
  shutdown_services_loop svcBeh
      (remaining_service_arns pages tear_down metrics_arn) ++
    shutdown_families_loop famBeh (plan_family_names m tear_down step_names)

/-- The per-entry decision of `calculate_missing_instances`: the deficit
entry emitted for one desired pair, if any. -/
def missingEntry (current : List (String × Int)) (p : String × Int) :
    Option (String × Int) :=
  let cur := dictGet current p.1
  if cur < p.2 then some (p.1, p.2 - cur) else none

/-- The membership test `query_active_instances` applies to one instance
when counting for type `t`: state code at most 16, and matching type. -/
def activeOfType (t : String) (i : EC2Instance) : Bool :=
  decide (i.state.code ≤ 16) && (t == i.instanceType)

/-- All instances of all reservations of all `describe_instances` pages, in
traversal order. -/
def allInstances (pages : List DescribeInstancesPage) : List EC2Instance :=
  pages.flatMap (fun page => page.reservations.flatMap Reservation.instances)

/-! ## Theorems -/

/-- Left-cancellation of string concatenation. -/
theorem string_append_left_cancel {s a b : String} (h : s ++ a = s ++ b) :
    a = b := by
  have hd := congrArg String.data h
  simp only [String.data_append] at hd
  exact String.ext (List.append_cancel_left hd)

/-- C6: for every instance type listed in the supported `ec2_type_by_vcpu`
table under vcpu count `v`, `cpu_units_for_instance_type` returns exactly
`v * 1024 - 512`; for every type absent from the derived lookup it raises
(`KeyError`, the code's rendering of `UnknownInstanceType`) instead of
returning a value. -/
theorem cpu_units_for_instance_type_spec :
    (∀ p ∈ ec2_type_by_vcpu, ∀ t ∈ p.2,
       cpu_units_for_instance_type t = .ok ((p.1 : Int) * 1024 - 512)) ∧
    (∀ t, vcpuLookup t = none → cpu_units_for_instance_type t = .error ()) := by
  constructor
  · decide
  · intro t h
    simp [cpu_units_for_instance_type, h]

/-- Witness for C6 at a supported type (`t2.medium`, 2 vcpus) and an
unsupported one (`m1.small`). -/
theorem cpu_units_for_instance_type_spec_witness :
    cpu_units_for_instance_type "t2.medium" = .ok ((2 : Int) * 1024 - 512) ∧
    cpu_units_for_instance_type "m1.small" = .error () :=
  ⟨cpu_units_for_instance_type_spec.1
      (2, ["t2.medium", "t2.large", "m3.large", "m4.large", "c3.large",
           "c4.large", "r3.large", "r4.large"]) (by decide)
      "t2.medium" (by decide),
   cpu_units_for_instance_type_spec.2 "m1.small" (by decide)⟩

/-- C2 counterexample: the metrics family name is derived from the cluster
name alone, so two managers for the same cluster with distinct run
identifiers get the very same metrics family name — contradicting the claim
that every derived resource name is a function of (step name, run
identifier) with no collisions across concurrent runs on one cluster. -/
theorem metrics_family_name_counterexample :
    (ECSManager.mk "cluster" "aaaa").plan_uuid ≠
      (ECSManager.mk "cluster" "bbbb").plan_uuid ∧
    (ECSManager.mk "cluster" "aaaa").metrics_family_name =
      (ECSManager.mk "cluster" "bbbb").metrics_family_name := by
  constructor
  · decide
  · rfl

/-- C2 (amended): per-step task-definition family names are deterministic in
(step name, run identifier) and, for a fixed step name, injective in the run
identifier — two distinct run identifiers never collide; the metrics family
name, by contrast, depends only on the cluster name, so it is identical for
every run on the same cluster. -/
theorem family_name_distinct_runs (m1 m2 : ECSManager) (step_name : String)
    (h : m1.plan_uuid ≠ m2.plan_uuid) :
    m1.family_name step_name ≠ m2.family_name step_name ∧
    (∀ n1 n2 : ECSManager, n1.ecs_name = n2.ecs_name →
       n1.metrics_family_name = n2.metrics_family_name) := by
  constructor
  · intro heq
    exact h (string_append_left_cancel heq)
  · intro n1 n2 he
    simp [ECSManager.metrics_family_name, he]

/-- Witness for C2 at two concrete run identifiers for step `"step"`. -/
theorem family_name_distinct_runs_witness :
    (ECSManager.mk "c" "a").family_name "step" ≠
      (ECSManager.mk "c" "b").family_name "step" :=
  (family_name_distinct_runs (ECSManager.mk "c" "a") (ECSManager.mk "c" "b")
    "step" (by decide)).1

/-- C7: `service_ready` is a total function (it never raises): it returns
`false` when the described service list is empty (missing service) and when
the first service has zero deployments; when a deployment is present it
returns `true` exactly when the deployment's desired task count equals its
running task count. -/
theorem service_ready_spec :
    (∀ resp : DescribeServicesResponse, resp.services = [] →
       service_ready resp = false) ∧
    (∀ (resp : DescribeServicesResponse) (svc : ECSService)
       (rest : List ECSService), resp.services = svc :: rest →
       svc.deployments = [] → service_ready resp = false) ∧
    (∀ (resp : DescribeServicesResponse) (svc : ECSService)
       (rest : List ECSService) (dep : Deployment) (drest : List Deployment),
       resp.services = svc :: rest → svc.deployments = dep :: drest →
       (service_ready resp = true ↔ dep.desiredCount = dep.runningCount)) := by
  refine ⟨?_, ?_, ?_⟩
  · intro resp h
    simp [service_ready, h]
  · intro resp svc rest h hd
    simp [service_ready, h, hd]
  · intro resp svc rest dep drest h hd
    simp [service_ready, h, hd]

/-- Witness for C7: an empty response, a zero-deployment service, and a
ready deployment with matching counts. -/
theorem service_ready_spec_witness :
    service_ready ⟨[]⟩ = false ∧
    service_ready ⟨[⟨[]⟩]⟩ = false ∧
    (service_ready ⟨[⟨[⟨3, 3⟩]⟩]⟩ = true ↔ (3 : Int) = 3) :=
  ⟨service_ready_spec.1 ⟨[]⟩ rfl,
   service_ready_spec.2.1 ⟨[⟨[]⟩]⟩ ⟨[]⟩ [] rfl rfl,
   service_ready_spec.2.2 ⟨[⟨[⟨3, 3⟩]⟩]⟩ ⟨[⟨3, 3⟩]⟩ [] ⟨3, 3⟩ [] rfl rfl⟩

/-- C3: for a step with status `"STARTED"`, `stop_finished_service` is a
no-op exactly when `now - start_time < run_delay.getD 0 + run_max_time`
(start delay defaulting to 0 when absent); otherwise — boundary included,
i.e. when `now - start_time ≥ run_delay.getD 0 + run_max_time` — it issues
exactly one scale-to-zero update on the step's service and sets the status
to `"STOPPED"`. -/
theorem stop_finished_service_boundary (now start_time : Int) (step : Step)
    (h : step.service_status = some "STARTED") :
    (now - start_time < step.run_delay.getD 0 + step.run_max_time →
       stop_finished_service now start_time step = .ok (step, [])) ∧
    (step.run_delay.getD 0 + step.run_max_time ≤ now - start_time →
       stop_finished_service now start_time step =
         .ok ({ step with service_status := some "STOPPED" },
              [.updateService step.name 0])) := by
  constructor
  · intro hlt
    simp only [stop_finished_service, h]
    rw [if_neg (by decide), if_pos (by omega)]
  · intro hge
    simp only [stop_finished_service, h]
    rw [if_neg (by decide), if_neg (by omega)]

/-- Witness for C3: the spec's scenario step (`startDelay=10`,
`maxRunTime=60`): at elapsed 50 it is not yet due; at elapsed 145 it is
stopped with one scale-to-zero call. -/
theorem stop_finished_service_boundary_witness :
    stop_finished_service 50 0 ⟨"s", some 10, 60, some "STARTED"⟩ =
      .ok (⟨"s", some 10, 60, some "STARTED"⟩, []) ∧
    stop_finished_service 145 0 ⟨"s", some 10, 60, some "STARTED"⟩ =
      .ok (⟨"s", some 10, 60, some "STOPPED"⟩, [.updateService "s" 0]) :=
  ⟨(stop_finished_service_boundary 50 0 ⟨"s", some 10, 60, some "STARTED"⟩
      rfl).1 (by decide),
   (stop_finished_service_boundary 145 0 ⟨"s", some 10, 60, some "STARTED"⟩
      rfl).2 (by decide)⟩

/-- C4: `stop_finished_service` is idempotent at a fixed clock value — if
one call succeeds and produces `step'`, running it again on `step'` changes
nothing and issues no further scale-down call — and the status only moves
forward: a step that was `"STARTED"` is afterwards `"STARTED"` or
`"STOPPED"`, never anything earlier. -/
theorem stop_finished_service_idempotent (now start_time : Int)
    (step step' : Step) (calls : List EcsCall)
    (h : stop_finished_service now start_time step = .ok (step', calls)) :
    stop_finished_service now start_time step' = .ok (step', []) ∧
    (step.service_status = some "STARTED" →
       step'.service_status = some "STARTED" ∨
       step'.service_status = some "STOPPED") := by
  cases hs : step.service_status with
  | none => simp [stop_finished_service, hs] at h
  | some status =>
    by_cases hstop : status = "STOPPED"
    · have heval : stop_finished_service now start_time step =
          .ok (step, []) := by
        simp only [stop_finished_service, hs]
        rw [if_pos (by simp [hstop])]
      have hpair : (step, ([] : List EcsCall)) = (step', calls) :=
        Except.ok.inj (heval.symm.trans h)
      have hstep : step' = step := (congrArg Prod.fst hpair).symm
      subst hstep
      exact ⟨heval, fun hstart => .inl (hs.trans hstart)⟩
    · by_cases hdue :
          now < start_time + (step.run_delay.getD 0 + step.run_max_time)
      · have heval : stop_finished_service now start_time step =
            .ok (step, []) := by
          simp only [stop_finished_service, hs]
          rw [if_neg (by simp [hstop]), if_pos hdue]
        have hpair : (step, ([] : List EcsCall)) = (step', calls) :=
          Except.ok.inj (heval.symm.trans h)
        have hstep : step' = step := (congrArg Prod.fst hpair).symm
        subst hstep
        exact ⟨heval, fun hstart => .inl (hs.trans hstart)⟩
      · have heval : stop_finished_service now start_time step =
            .ok ({ step with service_status := some "STOPPED" },
                 [.updateService step.name 0]) := by
          simp only [stop_finished_service, hs]
          rw [if_neg (by simp [hstop]), if_neg hdue]
        have hpair :
            ({ step with service_status := some "STOPPED" },
             [EcsCall.updateService step.name 0]) = (step', calls) :=
          Except.ok.inj (heval.symm.trans h)
        have hstep : step' = { step with service_status := some "STOPPED" } :=
          (congrArg Prod.fst hpair).symm
        subst hstep
        constructor
        · simp [stop_finished_service]
        · intro _
          exact .inr rfl

/-- Witness for C4: a started, due step is stopped by the first call; the
second call at the same clock is a no-op issuing no request. -/
theorem stop_finished_service_idempotent_witness :
    stop_finished_service 145 0 ⟨"s", some 10, 60, some "STOPPED"⟩ =
      .ok (⟨"s", some 10, 60, some "STOPPED"⟩, []) :=
  (stop_finished_service_idempotent 145 0 ⟨"s", some 10, 60, some "STARTED"⟩
    ⟨"s", some 10, 60, some "STOPPED"⟩ [.updateService "s" 0] (by decide)).1

/-- C10: a step whose `"service_status"` key was never written (the
conceptual `PENDING` state every step is in before `create_service`) makes
`stop_finished_service` raise `KeyError` instead of treating the step as
not yet due, and `stop_finished_services` over a list containing such a
step aborts with that exception instead of skipping the step. -/
theorem stop_finished_service_missing_status (now start_time : Int) :
    (∀ step : Step, step.service_status = none →
       stop_finished_service now start_time step = .error ()) ∧
    (∀ steps : List Step, (∃ s ∈ steps, s.service_status = none) →
       stop_finished_services now start_time steps = .error ()) := by
  have hfirst : ∀ step : Step, step.service_status = none →
      stop_finished_service now start_time step = .error () := by
    intro step h
    simp [stop_finished_service, h]
  refine ⟨hfirst, ?_⟩
  intro steps hex
  induction steps with
  | nil => simp at hex
  | cons s rest ih =>
    obtain ⟨x, hx, hnone⟩ := hex
    rcases List.mem_cons.mp hx with hhead | htail
    · subst hhead
      simp [stop_finished_services, hfirst x hnone]
    · cases hc : stop_finished_service now start_time s with
      | error e => simp [stop_finished_services, hc]
      | ok p =>
        have hrest := ih ⟨x, htail, hnone⟩
        simp [stop_finished_services, hc, hrest]

/-- Witness for C10: a two-step list whose second step lacks the status
field; the whole loop aborts with the exception. -/
theorem stop_finished_service_missing_status_witness :
    stop_finished_services 0 0
      [⟨"a", none, 5, some "STARTED"⟩, ⟨"b", none, 5, none⟩] = .error () :=
  (stop_finished_service_missing_status 0 0).2
    [⟨"a", none, 5, some "STARTED"⟩, ⟨"b", none, 5, none⟩]
    ⟨⟨"b", none, 5, none⟩, by decide, rfl⟩

theorem dictGet_cons (k k' : String) (v : Int) (d : List (String × Int)) :
    dictGet ((k, v) :: d) k' = if k == k' then v else dictGet d k' := by
  by_cases h : (k == k') = true
  · simp [dictGet, List.find?_cons_of_pos, h]
  · rw [if_neg h]
    unfold dictGet
    have h' : ¬((fun p : String × Int => p.1 == k') (k, v) = true) := h
    rw [@List.find?_cons_of_neg _ (fun p => p.1 == k') (k, v) d h']

theorem dictGet_eq_zero_of_forall_ne (d : List (String × Int)) (k : String)
    (h : ∀ r ∈ d, r.1 ≠ k) : dictGet d k = 0 := by
  have hnone : d.find? (fun p => p.1 == k) = none := by
    rw [List.find?_eq_none]
    intro x hx
    simpa using h x hx
  simp [dictGet, hnone]

theorem calculate_missing_instances_eq_filterMap
    (current : List (String × Int)) :
    ∀ (l : List (String × Int)) (init : List (String × Int)),
      l.foldl
        (fun needed p =>
          let cur := dictGet current p.1
          if cur < p.2 then needed ++ [(p.1, p.2 - cur)] else needed) init =
        init ++ l.filterMap (missingEntry current) := by
  intro l
  induction l with
  | nil => intro init; simp
  | cons p rest ih =>
    intro init
    by_cases h : dictGet current p.1 < p.2
    · simp only [List.foldl_cons, List.filterMap_cons, missingEntry, if_pos h,
        ih]
      simp
    · simp only [List.foldl_cons, List.filterMap_cons, missingEntry, if_neg h,
        ih]

theorem mem_missing_key (current : List (String × Int))
    (l : List (String × Int)) :
    ∀ r ∈ l.filterMap (missingEntry current), r.1 ∈ l.map Prod.fst := by
  intro r hr
  obtain ⟨s, hs, hsome⟩ := List.mem_filterMap.mp hr
  simp only [missingEntry] at hsome
  split at hsome
  · cases hsome
    exact List.mem_map.mpr ⟨s, hs, rfl⟩
  · cases hsome

theorem dictGet_filterMap_missing (current : List (String × Int)) :
    ∀ (desired : List (String × Int)),
      (desired.map Prod.fst).Nodup →
      ∀ p ∈ desired,
        dictGet (desired.filterMap (missingEntry current)) p.1 =
          max 0 (p.2 - dictGet current p.1) := by
  intro desired
  induction desired with
  | nil => intro _ p hp; cases hp
  | cons q rest ih =>
    intro hnd p hp
    have hq : q.1 ∉ rest.map Prod.fst := (List.nodup_cons.mp hnd).1
    have hrest := (List.nodup_cons.mp hnd).2
    rcases List.mem_cons.mp hp with hpq | hptl
    · subst hpq
      by_cases h : dictGet current p.1 < p.2
      · simp only [List.filterMap_cons, missingEntry, if_pos h]
        rw [dictGet_cons]
        simp only [beq_self_eq_true, if_true]
        omega
      · simp only [List.filterMap_cons, missingEntry, if_neg h]
        rw [dictGet_eq_zero_of_forall_ne]
        · omega
        · intro r hr hrk
          exact hq (hrk ▸ mem_missing_key current rest r hr)
    · have hne : q.1 ≠ p.1 := by
        intro he
        exact hq (he ▸ List.mem_map.mpr ⟨p, hptl, rfl⟩)
      by_cases h : dictGet current q.1 < q.2
      · simp only [List.filterMap_cons, missingEntry, if_pos h]
        rw [dictGet_cons]
        rw [if_neg (by simpa using hne)]
        exact ih hrest p hptl
      · simp only [List.filterMap_cons, missingEntry, if_neg h]
        exact ih hrest p hptl

/-- C5: for key-distinct `desired`, `calculate_missing_instances` contains
only strictly positive counts, its lookup value at each desired type is
exactly `max 0 (desired − current.get(type, 0))` (omitted entries reading as
0), and `current` plus the result covers `desired` elementwise. -/
theorem calculate_missing_instances_spec
    (desired current : List (String × Int))
    (hnd : (desired.map Prod.fst).Nodup) :
    (∀ q ∈ calculate_missing_instances desired current, 0 < q.2) ∧
    (∀ p ∈ desired,
       dictGet (calculate_missing_instances desired current) p.1 =
         max 0 (p.2 - dictGet current p.1)) ∧
    (∀ p ∈ desired,
       p.2 ≤ dictGet current p.1 +
         dictGet (calculate_missing_instances desired current) p.1) := by
  have heq : calculate_missing_instances desired current =
      desired.filterMap (missingEntry current) :=
    calculate_missing_instances_eq_filterMap current desired []
  have hmax := dictGet_filterMap_missing current desired hnd
  refine ⟨?_, ?_, ?_⟩
  · intro q hq
    rw [heq] at hq
    obtain ⟨s, _, hsome⟩ := List.mem_filterMap.mp hq
    simp only [missingEntry] at hsome
    split at hsome
    · cases hsome
      simpa using (by omega : (0 : Int) < s.2 - dictGet current s.1)
    · cases hsome
  · intro p hp
    rw [heq]
    exact hmax p hp
  · intro p hp
    rw [heq]
    have := hmax p hp
    omega

/-- Witness for C5 at the spec's scenario: current `{t2.medium: 1}`,
desired `{t2.medium: 1, c4.large: 2}` — the deficit at `c4.large` is 2. -/
theorem calculate_missing_instances_spec_witness :
    dictGet
      (calculate_missing_instances [("t2.medium", 1), ("c4.large", 2)]
        [("t2.medium", 1)]) "c4.large" =
      max 0 (2 - dictGet [("t2.medium", 1)] "c4.large") :=
  (calculate_missing_instances_spec [("t2.medium", 1), ("c4.large", 2)]
    [("t2.medium", 1)] (by decide)).2.1 ("c4.large", 2) (by decide)

theorem query_fold_instances (t : String) :
    ∀ (l : List EC2Instance) (acc : String → Nat),
      (l.foldl
        (fun acc inst =>
          if inst.state.code ≤ 16 then
            fun t' => if t' == inst.instanceType then acc t' + 1 else acc t'
          else acc) acc) t = acc t + l.countP (activeOfType t) := by
  intro l
  induction l with
  | nil => intro acc; simp
  | cons i rest ih =>
    intro acc
    simp only [List.foldl_cons, List.countP_cons]
    rw [ih]
    by_cases hcode : i.state.code ≤ 16
    · by_cases ht : (t == i.instanceType) = true
      · simp [activeOfType, hcode, ht]
        omega
      · simp [activeOfType, hcode, ht]
    · simp [activeOfType, hcode]

theorem query_fold_reservations (t : String) :
    ∀ (l : List Reservation) (acc : String → Nat),
      (l.foldl
        (fun acc r =>
          r.instances.foldl
            (fun acc inst =>
              if inst.state.code ≤ 16 then
                fun t' => if t' == inst.instanceType then acc t' + 1 else acc t'
              else acc) acc) acc) t =
        acc t + (l.flatMap Reservation.instances).countP (activeOfType t) := by
  intro l
  induction l with
  | nil => intro acc; simp
  | cons r rest ih =>
    intro acc
    simp only [List.foldl_cons, List.flatMap_cons, List.countP_append]
    rw [ih, query_fold_instances]
    omega

theorem query_fold_pages (t : String) :
    ∀ (pages : List DescribeInstancesPage) (acc : String → Nat),
      (pages.foldl
        (fun acc page =>
          page.reservations.foldl
            (fun acc r =>
              r.instances.foldl
                (fun acc inst =>
                  if inst.state.code ≤ 16 then
                    fun t' =>
                      if t' == inst.instanceType then acc t' + 1 else acc t'
                  else acc) acc) acc) acc) t =
        acc t + (allInstances pages).countP (activeOfType t) := by
  intro pages
  induction pages with
  | nil => intro acc; simp [allInstances]
  | cons page rest ih =>
    intro acc
    simp only [List.foldl_cons, allInstances, List.flatMap_cons,
      List.countP_append]
    rw [ih, query_fold_reservations]
    simp only [allInstances]
    omega

/-- C8: over the (owner- and cluster-filtered) inventory pages,
`query_active_instances` counts, for each instance type `t`, exactly the
instances whose lifecycle state is pending or running and whose type is `t`
— every shutting-down, terminated, stopping or stopped instance is excluded
— aggregated across all pages; the function is pure (it only reads the
pages and issues no writes). -/
theorem query_active_instances_spec (pages : List DescribeInstancesPage)
    (t : String) :
    query_active_instances pages t =
      (allInstances pages).countP
        (fun i =>
          decide ((i.state = .pending ∨ i.state = .running) ∧
            i.instanceType = t)) := by
  have hfold := query_fold_pages t pages (fun _ => 0)
  have hcongr : ∀ i ∈ allInstances pages, activeOfType t i = true ↔
      (decide ((i.state = .pending ∨ i.state = .running) ∧
        i.instanceType = t)) = true := by
    intro i _
    cases hst : i.state
    case pending =>
      simp only [activeOfType, hst, InstanceState.code, Bool.and_eq_true,
        decide_eq_true_eq, beq_iff_eq]
      exact ⟨fun h => ⟨Or.inl trivial, h.2.symm⟩,
             fun h => ⟨Nat.zero_le 16, h.2.symm⟩⟩
    case running =>
      simp only [activeOfType, hst, InstanceState.code, Bool.and_eq_true,
        decide_eq_true_eq, beq_iff_eq]
      exact ⟨fun h => ⟨Or.inr trivial, h.2.symm⟩,
             fun h => ⟨Nat.le_refl 16, h.2.symm⟩⟩
    all_goals simp [activeOfType, hst, InstanceState.code]
  calc query_active_instances pages t
      = (allInstances pages).countP (activeOfType t) := by
        simpa [query_active_instances] using hfold
    _ = _ := List.countP_congr hcongr

theorem request_instances_ok (launch : String → Int → Except Unit (List String)) :
    ∀ (entries : List (String × Int)) (acc : List String),
      (∀ p ∈ entries, launch p.1 p.2 ≠ .error ()) →
      request_instances launch entries acc =
        (entries.map (fun p => EC2Call.runInstances p.1 p.2 p.2) ++
          [.createTags (acc ++ entries.flatMap
            (fun p => (launch p.1 p.2).toOption.getD []))], none) := by
  intro entries
  induction entries with
  | nil => intro acc _; simp [request_instances]
  | cons q rest ih =>
    intro acc hok
    cases hl : launch q.1 q.2 with
    | error e => exact absurd hl (by simpa using hok q (by simp))
    | ok ids =>
      have hrest : ∀ p ∈ rest, launch p.1 p.2 ≠ .error () :=
        fun p hp => hok p (List.mem_cons_of_mem q hp)
      simp [request_instances, hl, ih (acc ++ ids) hrest,
        List.append_assoc, Except.toOption]

theorem request_instances_err (launch : String → Int → Except Unit (List String))
    (t : String) (c : Int) (post : List (String × Int)) :
    ∀ (pre : List (String × Int)) (acc : List String),
      (∀ p ∈ pre, launch p.1 p.2 ≠ .error ()) →
      launch t c = .error () →
      request_instances launch (pre ++ (t, c) :: post) acc =
        (pre.map (fun p => EC2Call.runInstances p.1 p.2 p.2) ++
          [.runInstances t c c], some ()) := by
  intro pre
  induction pre with
  | nil =>
    intro acc _ herr
    simp [request_instances, herr]
  | cons q rest ih =>
    intro acc hok herr
    cases hl : launch q.1 q.2 with
    | error e => exact absurd hl (by simpa using hok q (by simp))
    | ok ids =>
      have hrest : ∀ p ∈ rest, launch p.1 p.2 ≠ .error () :=
        fun p hp => hok p (List.mem_cons_of_mem q hp)
      simp [request_instances, hl, ih (acc ++ ids) hrest herr]

/-- C9 counterexample: for the need mapping `{t2.micro: 0}` — which has no
type with a positive required count — the code still issues a launch
request (`run_instances` with `MinCount = MaxCount = 0`), refuting the
claim that a launch request is issued only per instance type with a
positive required count. -/
theorem request_instances_claim_counterexample :
    EC2Call.runInstances "t2.micro" 0 0 ∈
      (request_instances (fun _ _ => .ok []) [("t2.micro", 0)] []).1 ∧
    ¬(0 : Int) < 0 := by decide

/-- C9 (amended): `request_instances` issues exactly one launch request per
entry of the need mapping — whatever the sign of its count — with minimum
and maximum both equal to that count; only after every launch succeeded
does it issue one batched `create_tags` call covering every instance id the
launches returned.  If some launch fails, the exception propagates: the
trace stops at the failing launch, no tagging call is ever issued, and the
instances already launched in that invocation remain untagged. -/
theorem request_instances_spec
    (launch : String → Int → Except Unit (List String))
    (entries pre post : List (String × Int)) (t : String) (c : Int) :
    ((∀ p ∈ entries, launch p.1 p.2 ≠ .error ()) →
       request_instances launch entries [] =
         (entries.map (fun p => EC2Call.runInstances p.1 p.2 p.2) ++
           [.createTags (entries.flatMap
             (fun p => (launch p.1 p.2).toOption.getD []))], none)) ∧
    ((∀ p ∈ pre, launch p.1 p.2 ≠ .error ()) → launch t c = .error () →
       request_instances launch (pre ++ (t, c) :: post) [] =
         (pre.map (fun p => EC2Call.runInstances p.1 p.2 p.2) ++
            [.runInstances t c c], some ()) ∧
       ∀ rs, EC2Call.createTags rs ∉
         (request_instances launch (pre ++ (t, c) :: post) []).1) := by
  constructor
  · intro hok
    simpa using request_instances_ok launch entries [] hok
  · intro hok herr
    have hchar := request_instances_err launch t c post pre [] hok herr
    refine ⟨hchar, ?_⟩
    intro rs hmem
    rw [hchar] at hmem
    rcases List.mem_append.mp hmem with hmap | hsingle
    · obtain ⟨p, _, hp⟩ := List.mem_map.mp hmap
      cases hp
    · simp at hsingle

/-- Witness for C9: a launch oracle that succeeds for type `a` and fails
for type `b`: the all-success trace ends in one tag call; the failing trace
stops at the failing launch with the error propagated. -/
theorem request_instances_spec_witness :
    request_instances
        (fun ty _ => if ty == "a" then Except.ok ["i-1"] else Except.error ())
        [("a", 2)] [] =
      ([.runInstances "a" 2 2, .createTags ["i-1"]], none) ∧
    request_instances
        (fun ty _ => if ty == "a" then Except.ok ["i-1"] else Except.error ())
        [("a", 2), ("b", 1)] [] =
      ([.runInstances "a" 2 2, .runInstances "b" 1 1], some ()) := by
  have h := request_instances_spec
    (fun ty _ => if ty == "a" then Except.ok ["i-1"] else Except.error ())
    [("a", 2)] [("a", 2)] [] "b" 1
  exact ⟨by simpa using h.1 (by decide),
         by simpa using (h.2 (by decide) (by decide)).1⟩

theorem shutdown_services_loop_update (beh : String → SvcBehavior) :
    ∀ (arns : List String) (arn : String), arn ∈ arns →
      EcsCall.updateService arn 0 ∈ shutdown_services_loop beh arns := by
  intro arns
  induction arns with
  | nil => intro arn h; cases h
  | cons a rest ih =>
    intro arn h
    rcases List.mem_cons.mp h with heq | htl
    · subst heq
      by_cases hf : (beh arn).updateFails <;>
        simp [shutdown_services_loop, hf]
    · by_cases hf : (beh a).updateFails <;>
        simp [shutdown_services_loop, hf, ih arn htl]

theorem shutdown_services_loop_delete (beh : String → SvcBehavior) :
    ∀ (arns : List String) (arn : String), arn ∈ arns →
      (beh arn).updateFails = false →
      EcsCall.deleteService arn ∈ shutdown_services_loop beh arns := by
  intro arns
  induction arns with
  | nil => intro arn h; cases h
  | cons a rest ih =>
    intro arn h hok
    rcases List.mem_cons.mp h with heq | htl
    · subst heq
      simp [shutdown_services_loop, hok]
    · by_cases hf : (beh a).updateFails <;>
        simp [shutdown_services_loop, hf, ih arn htl hok]

theorem shutdown_services_loop_no_delete (beh : String → SvcBehavior) :
    ∀ (arns : List String) (arn : String), (beh arn).updateFails = true →
      EcsCall.deleteService arn ∉ shutdown_services_loop beh arns := by
  intro arns
  induction arns with
  | nil => intro arn _; simp [shutdown_services_loop]
  | cons a rest ih =>
    intro arn h hmem
    by_cases hf : (beh a).updateFails
    · rw [shutdown_services_loop, if_pos hf] at hmem
      rcases List.mem_cons.mp hmem with h1 | hmem2
      · cases h1
      · exact ih arn h hmem2
    · rw [shutdown_services_loop, if_neg hf] at hmem
      rcases List.mem_cons.mp hmem with h1 | hmem2
      · cases h1
      · rcases List.mem_cons.mp hmem2 with h2 | hmem3
        · cases h2
          rw [h] at hf
          exact hf rfl
        · exact ih arn h hmem3

theorem shutdown_families_loop_no_delete (beh : String → FamilyBehavior) :
    ∀ (fams : List String) (arn : String),
      EcsCall.deleteService arn ∉ shutdown_families_loop beh fams := by
  intro fams
  induction fams with
  | nil => intro arn; simp [shutdown_families_loop]
  | cons f rest ih =>
    intro arn
    by_cases hf : (beh f).describeFails <;>
      simp [shutdown_families_loop, hf, ih arn]

/-- C1 counterexample: one service `s1` whose scale-to-zero call fails with
`ClientError`: the loop `continue`s, so the deletion of `s1` is never
attempted — refuting the claim that a failed scale-down still proceeds to
attempt the deletion of that service. -/
theorem shutdown_plan_claim_counterexample :
    "s1" ∈ remaining_service_arns [["s1"]] false none ∧
    EcsCall.updateService "s1" 0 ∈
      shutdown_plan ⟨"c", "u"⟩ [["s1"]] false none
        (fun _ => ⟨true, false⟩) (fun _ => ⟨false, false⟩) [] ∧
    EcsCall.deleteService "s1" ∉
      shutdown_plan ⟨"c", "u"⟩ [["s1"]] false none
        (fun _ => ⟨true, false⟩) (fun _ => ⟨false, false⟩) [] := by decide

/-- C1 (amended): `shutdown_plan` is total (it never raises, whatever the
per-service `ClientError` behaviour) and attempts the scale-to-zero call on
every remaining service regardless of earlier per-service failures; when
the scale-down of a service succeeds its deletion is attempted (a deletion
failure being swallowed), but when the scale-down of service `k` fails the
deletion of `k` is skipped (`continue`), not attempted. -/
theorem shutdown_plan_best_effort (m : ECSManager)
    (pages : List (List String)) (tear_down : Bool)
    (metrics_arn : Option String) (svcBeh : String → SvcBehavior)
    (famBeh : String → FamilyBehavior) (step_names : List String) :
    (∀ arn ∈ remaining_service_arns pages tear_down metrics_arn,
       EcsCall.updateService arn 0 ∈
         shutdown_plan m pages tear_down metrics_arn svcBeh famBeh
           step_names) ∧
    (∀ arn ∈ remaining_service_arns pages tear_down metrics_arn,
       (svcBeh arn).updateFails = false →
       EcsCall.deleteService arn ∈
         shutdown_plan m pages tear_down metrics_arn svcBeh famBeh
           step_names) ∧
    (∀ arn : String, (svcBeh arn).updateFails = true →
       EcsCall.deleteService arn ∉
         shutdown_plan m pages tear_down metrics_arn svcBeh famBeh
           step_names) := by
  refine ⟨?_, ?_, ?_⟩
  · intro arn h
    exact List.mem_append_left _
      (shutdown_services_loop_update svcBeh _ arn h)
  · intro arn h hok
    exact List.mem_append_left _
      (shutdown_services_loop_delete svcBeh _ arn h hok)
  · intro arn h hmem
    rcases List.mem_append.mp hmem with h1 | h2
    · exact shutdown_services_loop_no_delete svcBeh _ arn h h1
    · exact shutdown_families_loop_no_delete famBeh _ arn h2

/-- Witness for C1: a single service whose scale-down succeeds and whose
deletion fails — both calls are attempted, nothing raises. -/
theorem shutdown_plan_best_effort_witness :
    EcsCall.updateService "s1" 0 ∈
      shutdown_plan ⟨"c", "u"⟩ [["s1"]] true none
        (fun _ => ⟨false, true⟩) (fun _ => ⟨false, false⟩) ["step"] ∧
    EcsCall.deleteService "s1" ∈
      shutdown_plan ⟨"c", "u"⟩ [["s1"]] true none
        (fun _ => ⟨false, true⟩) (fun _ => ⟨false, false⟩) ["step"] :=
  ⟨(shutdown_plan_best_effort ⟨"c", "u"⟩ [["s1"]] true none
      (fun _ => ⟨false, true⟩) (fun _ => ⟨false, false⟩) ["step"]).1
      "s1" (by decide),
   (shutdown_plan_best_effort ⟨"c", "u"⟩ [["s1"]] true none
      (fun _ => ⟨false, true⟩) (fun _ => ⟨false, false⟩) ["step"]).2.1
      "s1" (by decide) rfl⟩

end Ardere
